import Mathlib

/-!
Verification of the exam-session state machine of `src/index.tsx` (the AI exam
generator app).  The React component state and its handlers are embedded as
pure Lean functions; the UI event loop is a step function that fires each
handler exactly from the state whose rendered view exposes it.
-/

namespace ExamAI

/-- The `ExamQuestion` record type of `src/index.tsx` (lines 6-11). -/
structure ExamQuestion where
  question : String
  options : List String
  correctAnswer : String
  explanation : String
  deriving DecidableEq

/-- The `AppState` union of `src/index.tsx` (line 13).  In the design spec
`start` is NotStarted, `loading` is Loading, `in_progress` is InProgress and
`results` is Finished. -/
inductive AppState where
  | start
  | loading
  | in_progress
  | results
  deriving DecidableEq

/-- `EXAM_DURATION_SECONDS` (line 15). -/
def EXAM_DURATION_SECONDS : Int := 300

/-- The component state of `src/index.tsx` (lines 17-23) as far as the exam
session is concerned: `appState`, `topic`, `examQuestions`, `userAnswers`,
`currentQuestionIndex`, `timeLeft` and `timeUp`.  The theme and popup flags
play no part in the session logic and are omitted.  A `null` entry of
`userAnswers` is `none`. -/
structure App where
  appState : AppState
  topic : String
  examQuestions : List ExamQuestion
  userAnswers : List (Option String)
  currentQuestionIndex : Nat
  timeLeft : Int
  timeUp : Bool
  deriving DecidableEq

/-- The state after the initial render: the `useState` initial values of
lines 17-23. -/
def initialState : App :=
  { appState := .start
    topic := "World History"
    examQuestions := []
    userAnswers := []
    currentQuestionIndex := 0
    timeLeft := EXAM_DURATION_SECONDS
    timeUp := false }

/-- `handleSubmit` (lines 44-49): sets the time-up flag exactly when the clock
has reached zero, and moves to the results state. -/
def handleSubmit (s : App) : App :=
  { s with
    timeUp := if s.timeLeft ≤ 0 then true else s.timeUp
    appState := .results }

/-- One second of the countdown (lines 52-67).  The effect schedules the
repeating timer exactly while the state is `in_progress` with a nonzero clock;
one tick of that timer decrements `timeLeft`, after which the effect re-runs
and, if the new value is zero, synchronously calls `handleSubmit`.  Outside
`in_progress`, or at clock zero (where no timer is scheduled), a second passes
with no state change. -/
def tick (s : App) : App :=
  if s.appState = .in_progress ∧ s.timeLeft ≠ 0 then
    let t := { s with timeLeft := s.timeLeft - 1 }
    if t.timeLeft = 0 then handleSubmit t else t
  else s

/-- `n` consecutive seconds of the countdown. -/
def iterTick : Nat → App → App
  | 0, s => s
  | n + 1, s => iterTick n (tick s)

/-- The synchronous prefix of `generateExam` (lines 70-72): enter `loading`,
record the requested topic, and issue the generation request.  The Boolean
records that a fetch was started; the function performs no check of the
current state, so it is unconditionally `true`. -/
def generateExamStart (s : App) (examTopic : String) : App × Bool :=
  ({ s with appState := .loading, topic := examTopic }, true)

/-- The continuation of `generateExam` once the request settles
(lines 122-139).  `none` stands for any throw before the length check — a
request failure, a JSON parse failure, or a missing `questions` field; `some
qs` stands for a response whose parsed `questions` array is `qs`.  The
Boolean reports whether the error alert was shown. -/
def generateExamFinish (s : App) (result : Option (List ExamQuestion)) :
    App × Bool :=
  match result with
  | some qs =>
    if qs.length > 0 then
      ({ s with
          examQuestions := qs
          userAnswers := List.replicate qs.length none
          currentQuestionIndex := 0
          timeLeft := EXAM_DURATION_SECONDS
          timeUp := false
          appState := .in_progress }, false)
    else
      ({ s with appState := .start }, true)
  | none => ({ s with appState := .start }, true)

/-- JavaScript array index assignment `arr[i] = v` on a copied answers array:
in range it overwrites the entry; past the end it extends the array, the
skipped positions reading back as unset. -/
def jsArraySet (l : List (Option String)) (i : Nat) (v : Option String) :
    List (Option String) :=
  if i < l.length then l.set i v
  else l ++ List.replicate (i - l.length) none ++ [v]

/-- `handleAnswerSelect` (lines 147-151): copies `userAnswers` and overwrites
the entry at `currentQuestionIndex`. -/
def handleAnswerSelect (s : App) (answer : String) : App :=
  { s with
    userAnswers := jsArraySet s.userAnswers s.currentQuestionIndex (some answer) }

/-- `handleNext` (lines 153-157). -/
def handleNext (s : App) : App :=
  if s.currentQuestionIndex < s.examQuestions.length - 1 then
    { s with currentQuestionIndex := s.currentQuestionIndex + 1 }
  else s

/-- `handlePrevious` (lines 159-163). -/
def handlePrevious (s : App) : App :=
  if s.currentQuestionIndex > 0 then
    { s with currentQuestionIndex := s.currentQuestionIndex - 1 }
  else s

/-- `handleReset` (lines 165-172).  It resets the state, the questions, the
answers, the index, the topic and the time-up flag; it does not touch
`timeLeft`. -/
def handleReset (s : App) : App :=
  { s with
    appState := .start
    examQuestions := []
    userAnswers := []
    currentQuestionIndex := 0
    topic := "World History"
    timeUp := false }

/-- The fold body of `calculateScore` (lines 174-181): `userAnswers.reduce`
with a running index, reading `examQuestions[index].correctAnswer` without any
bounds check — an out-of-range index dereferences `undefined` and crashes,
modelled as `none`. -/
def scoreLoop :
    List (Option String) → Nat → List ExamQuestion → Nat → Option Nat
  | [], _, _, score => some score
  | answer :: rest, index, qs, score =>
    match qs[index]? with
    | none => none
    | some q =>
      scoreLoop rest (index + 1) qs
        (if answer = some q.correctAnswer then score + 1 else score)

/-- `calculateScore` (lines 174-181), as a function of the two state fields it
reads. -/
def calculateScore (examQuestions : List ExamQuestion)
    (userAnswers : List (Option String)) : Option Nat :=
  scoreLoop userAnswers 0 examQuestions 0

/-- Restatement of the scorer, in the words of the spec: the count of
positions whose submitted answer equals the question's correct answer (exact
match, an unset answer never matching). -/
def specMatchCount (questions : List ExamQuestion)
    (answers : List (Option String)) : Nat :=
  (questions.zip answers).countP (fun p => decide (p.2 = some p.1.correctAnswer))

/-- The events the running app can deliver to the handlers: the answer,
Previous/Next and Submit buttons of the `in_progress` view, the Take Another
Exam button of the `results` view, the Generate Exam / curriculum buttons of
the `start` view, the settling of the generation request issued on entering
`loading`, and one second of wall-clock time. -/
inductive Op where
  | select (answer : String)
  | nextQ
  | previousQ
  | submit
  | reset
  | startExam (examTopic : String)
  | finishFetch (result : Option (List ExamQuestion))
  | timerTick
  deriving DecidableEq

/-- One UI-driven step.  Each handler fires exactly from the state whose
rendered view exposes its control (`renderContent`, lines 189-294): the
`loading` view renders only a spinner, so no handler other than the settling
of its pending request can fire there; the countdown carries its own guard
inside `tick`. -/
def uiStep (s : App) : Op → App
  | .select a => if s.appState = .in_progress then handleAnswerSelect s a else s
  | .nextQ => if s.appState = .in_progress then handleNext s else s
  | .previousQ => if s.appState = .in_progress then handlePrevious s else s
  | .submit => if s.appState = .in_progress then handleSubmit s else s
  | .reset => if s.appState = .results then handleReset s else s
  | .startExam t => if s.appState = .start then (generateExamStart s t).1 else s
  | .finishFetch r => if s.appState = .loading then (generateExamFinish s r).1 else s
  | .timerTick => tick s

/-- The states the app can reach from its initial render by UI-driven steps. -/
inductive Reachable : App → Prop
  | init : Reachable initialState
  | step {s : App} (op : Op) : Reachable s → Reachable (uiStep s op)

/-- The structural invariant the UI maintains: answers stay index-aligned with
questions, the question pointer is in range whenever questions exist, and an
exam in progress holds at least one question. -/
def GoodState (s : App) : Prop :=
  s.userAnswers.length = s.examQuestions.length ∧
  (s.examQuestions ≠ [] → s.currentQuestionIndex < s.examQuestions.length) ∧
  (s.appState = .in_progress → s.examQuestions ≠ [])

/-! ### The scorer -/

lemma scoreLoop_spec (as : List (Option String)) :
    ∀ (idx score : Nat) (qs : List ExamQuestion), idx + as.length ≤ qs.length →
      scoreLoop as idx qs score = some (score + specMatchCount (qs.drop idx) as) := by
  induction as with
  | nil =>
    intro idx score qs _
    simp [scoreLoop, specMatchCount, List.zip_nil_right]
  | cons a rest ih =>
    intro idx score qs h
    simp only [List.length_cons] at h
    have hidx : idx < qs.length := by omega
    have hget : qs[idx]? = some qs[idx] := List.getElem?_eq_getElem hidx
    have hdrop : qs.drop idx = qs[idx] :: qs.drop (idx + 1) :=
      List.drop_eq_getElem_cons hidx
    simp only [scoreLoop, hget]
    rw [ih (idx + 1) _ qs (by omega)]
    rw [hdrop]
    simp only [specMatchCount, List.zip_cons_cons, List.countP_cons]
    by_cases hc : a = some (qs[idx]).correctAnswer <;> (simp [hc]; try omega)

lemma calculateScore_eq_specMatchCount (qs : List ExamQuestion)
    (as : List (Option String)) (h : as.length ≤ qs.length) :
    calculateScore qs as = some (specMatchCount qs as) := by
  have := scoreLoop_spec as 0 0 qs (by omega)
  simpa [calculateScore] using this

lemma specMatchCount_le (qs : List ExamQuestion) (as : List (Option String)) :
    specMatchCount qs as ≤ qs.length :=
  le_trans (List.countP_le_length _) (by rw [List.length_zip]; omega)

/-! ### JavaScript array assignment -/

lemma jsArraySet_length (l : List (Option String)) (i : Nat) (v : Option String) :
    (jsArraySet l i v).length = max l.length (i + 1) := by
  by_cases h : i < l.length <;> simp [jsArraySet, h] <;> omega

lemma jsArraySet_getElem (l : List (Option String)) (i : Nat) (v : Option String) :
    (jsArraySet l i v)[i]? = some v := by
  by_cases h : i < l.length
  · simp [jsArraySet, h, List.getElem?_set_eq_of_lt]
  · have hl : (l ++ List.replicate (i - l.length) none).length = i := by
      simp; omega
    rw [jsArraySet, if_neg h]
    rw [List.getElem?_append_right (by simp; omega), hl]
    simp

lemma set_append_last (xs : List (Option String)) (v w : Option String) :
    (xs ++ [v]).set xs.length w = xs ++ [w] := by
  induction xs with
  | nil => rfl
  | cons x xs ih => simp [List.set, ih]

lemma jsArraySet_jsArraySet (l : List (Option String)) (i : Nat)
    (v w : Option String) :
    jsArraySet (jsArraySet l i v) i w = jsArraySet l i w := by
  by_cases h : i < l.length
  · have h1 : i < (l.set i v).length := by simpa using h
    simp [jsArraySet, h, h1, List.set_set]
  · have hl : (l ++ List.replicate (i - l.length) none).length = i := by
      simp; omega
    have hv : jsArraySet l i v = l ++ List.replicate (i - l.length) none ++ [v] := by
      simp [jsArraySet, h]
    have hw : jsArraySet l i w = l ++ List.replicate (i - l.length) none ++ [w] := by
      simp [jsArraySet, h]
    have hcond : i < (l ++ List.replicate (i - l.length) none ++ [v]).length := by
      simp; omega
    have hstep := set_append_last (l ++ List.replicate (i - l.length) none) v w
    rw [hl] at hstep
    rw [hv, hw]
    rw [jsArraySet, if_pos hcond]
    exact hstep

/-! ### The UI invariant -/

lemma goodState_initial : GoodState initialState :=
  ⟨rfl, fun h => absurd rfl h, fun h => by simp [initialState] at h⟩

lemma goodState_uiStep {s : App} (h : GoodState s) (op : Op) :
    GoodState (uiStep s op) := by
  obtain ⟨h1, h2, h3⟩ := h
  cases op with
  | select a =>
    by_cases hs : s.appState = .in_progress
    · have hq := h3 hs
      have hidx := h2 hq
      simp only [uiStep, if_pos hs]
      refine ⟨?_, h2, h3⟩
      show (jsArraySet s.userAnswers s.currentQuestionIndex (some a)).length
          = s.examQuestions.length
      rw [jsArraySet_length]
      omega
    · simp only [uiStep, if_neg hs]
      exact ⟨h1, h2, h3⟩
  | nextQ =>
    by_cases hs : s.appState = .in_progress
    · simp only [uiStep, if_pos hs, handleNext]
      by_cases hlt : s.currentQuestionIndex < s.examQuestions.length - 1
      · rw [if_pos hlt]
        refine ⟨h1, fun _ => ?_, h3⟩
        show s.currentQuestionIndex + 1 < s.examQuestions.length
        omega
      · rw [if_neg hlt]
        exact ⟨h1, h2, h3⟩
    · simp only [uiStep, if_neg hs]
      exact ⟨h1, h2, h3⟩
  | previousQ =>
    by_cases hs : s.appState = .in_progress
    · simp only [uiStep, if_pos hs, handlePrevious]
      by_cases hlt : s.currentQuestionIndex > 0
      · rw [if_pos hlt]
        refine ⟨h1, fun hq => ?_, h3⟩
        show s.currentQuestionIndex - 1 < s.examQuestions.length
        have := h2 hq
        omega
      · rw [if_neg hlt]
        exact ⟨h1, h2, h3⟩
    · simp only [uiStep, if_neg hs]
      exact ⟨h1, h2, h3⟩
  | submit =>
    by_cases hs : s.appState = .in_progress
    · simp only [uiStep, if_pos hs]
      exact ⟨h1, h2, fun hc => by simp [handleSubmit] at hc⟩
    · simp only [uiStep, if_neg hs]
      exact ⟨h1, h2, h3⟩
  | reset =>
    by_cases hs : s.appState = .results
    · simp only [uiStep, if_pos hs]
      exact ⟨rfl, fun hq => absurd rfl hq, fun hc => by simp [handleReset] at hc⟩
    · simp only [uiStep, if_neg hs]
      exact ⟨h1, h2, h3⟩
  | startExam t =>
    by_cases hs : s.appState = .start
    · simp only [uiStep, if_pos hs]
      exact ⟨h1, h2, fun hc => by simp [generateExamStart] at hc⟩
    · simp only [uiStep, if_neg hs]
      exact ⟨h1, h2, h3⟩
  | finishFetch r =>
    by_cases hs : s.appState = .loading
    · simp only [uiStep, if_pos hs]
      rcases r with _ | qs
      · exact ⟨h1, h2, fun hc => by simp [generateExamFinish] at hc⟩
      · simp only [generateExamFinish]
        by_cases hpos : qs.length > 0
        · rw [if_pos hpos]
          refine ⟨?_, ?_, ?_⟩
          · show (List.replicate qs.length (none : Option String)).length = qs.length
            simp
          · intro _
            show 0 < qs.length
            exact hpos
          · intro _
            show qs ≠ []
            exact List.length_pos.mp hpos
        · rw [if_neg hpos]
          exact ⟨h1, h2, fun hc => by simp at hc⟩
    · simp only [uiStep, if_neg hs]
      exact ⟨h1, h2, h3⟩
  | timerTick =>
    simp only [uiStep, tick]
    by_cases hc : s.appState = .in_progress ∧ s.timeLeft ≠ 0
    · rw [if_pos hc]
      by_cases h0 : s.timeLeft - 1 = 0
      · rw [if_pos h0]
        exact ⟨h1, h2, fun hcon => by simp [handleSubmit] at hcon⟩
      · rw [if_neg h0]
        exact ⟨h1, h2, h3⟩
    · rw [if_neg hc]
      exact ⟨h1, h2, h3⟩

lemma goodState_of_reachable {s : App} (h : Reachable s) : GoodState s := by
  induction h with
  | init => exact goodState_initial
  | step op _ ih => exact goodState_uiStep ih op

/-! ### The countdown -/

lemma tick_dec {s : App} (hs : s.appState = .in_progress) (hne : s.timeLeft ≠ 0) :
    tick s = (if s.timeLeft - 1 = 0
              then handleSubmit { s with timeLeft := s.timeLeft - 1 }
              else { s with timeLeft := s.timeLeft - 1 }) := by
  rw [tick, if_pos ⟨hs, hne⟩]

lemma countdown_run :
    ∀ (n : Nat), 0 < n → ∀ (s : App), s.appState = .in_progress →
      s.timeLeft = (n : Int) →
      (∀ k, k < n → (iterTick k s).appState = .in_progress ∧
          (iterTick k s).timeLeft = (n : Int) - (k : Int)) ∧
      (iterTick n s).appState = .results ∧ (iterTick n s).timeUp = true := by
  intro n
  induction n with
  | zero => intro h; exact absurd h (lt_irrefl 0)
  | succ m ih =>
    intro _ s hs ht
    have hne : s.timeLeft ≠ 0 := by rw [ht]; push_cast; omega
    have hdec : s.timeLeft - 1 = (m : Int) := by rw [ht]; push_cast; ring
    rcases Nat.eq_zero_or_pos m with hm | hm
    · subst hm
      have ht0 : s.timeLeft - 1 = 0 := by simpa using hdec
      have htick : tick s = handleSubmit { s with timeLeft := s.timeLeft - 1 } := by
        rw [tick_dec hs hne, if_pos ht0]
      constructor
      · intro k hk
        have hk0 : k = 0 := by omega
        subst hk0
        refine ⟨hs, ?_⟩
        show s.timeLeft = _
        rw [ht]
        push_cast
        try ring
      · have h1 : iterTick 1 s = tick s := rfl
        rw [h1, htick]
        refine ⟨rfl, ?_⟩
        show (if s.timeLeft - 1 ≤ 0 then true
              else ({ s with timeLeft := s.timeLeft - 1 } : App).timeUp) = true
        rw [if_pos (by omega)]
    · have hm0 : ¬(s.timeLeft - 1 = 0) := by rw [hdec]; omega
      have htick : tick s = { s with timeLeft := s.timeLeft - 1 } := by
        rw [tick_dec hs hne, if_neg hm0]
      have hs1state : ({ s with timeLeft := s.timeLeft - 1 } : App).appState
          = .in_progress := hs
      have hs1time : ({ s with timeLeft := s.timeLeft - 1 } : App).timeLeft
          = (m : Int) := hdec
      obtain ⟨ihall, ihfin⟩ := ih hm _ hs1state hs1time
      constructor
      · intro k hk
        cases k with
        | zero =>
          refine ⟨hs, ?_⟩
          show s.timeLeft = _
          rw [ht]
          push_cast
          ring
        | succ j =>
          have hj : j < m := by omega
          have hstep : iterTick (j + 1) s
              = iterTick j ({ s with timeLeft := s.timeLeft - 1 } : App) := by
            show iterTick j (tick s) = _
            rw [htick]
          rw [hstep]
          obtain ⟨hA, hT⟩ := ihall j hj
          refine ⟨hA, ?_⟩
          rw [hT]
          push_cast
          ring
      · have hstep : iterTick (m + 1) s
            = iterTick m ({ s with timeLeft := s.timeLeft - 1 } : App) := by
          show iterTick m (tick s) = _
          rw [htick]
        rw [hstep]
        exact ihfin

/-! ### Concrete states used to exercise the theorems -/

/-- The spec's three-question scoring scenario. -/
def scenarioQuestions : List ExamQuestion :=
  [ { question := "What is the capital of France?"
      options := ["Paris", "London", "Rome", "Berlin"]
      correctAnswer := "Paris"
      explanation := "Paris is the capital of France." },
    { question := "Which planet is known as the red planet?"
      options := ["Venus", "Mars", "Jupiter", "Saturn"]
      correctAnswer := "Mars"
      explanation := "Mars appears red." },
    { question := "What is the powerhouse of the cell?"
      options := ["Nucleus", "Ribosome", "Mitochondria", "Golgi"]
      correctAnswer := "Mitochondria"
      explanation := "Mitochondria produce the cell's energy." } ]

/-- The answers submitted in the spec's scoring scenario. -/
def scenarioAnswers : List (Option String) :=
  [some "Paris", some "Mars", some "Nucleus"]

/-- A well-formed question used to build small concrete sessions. -/
def demoQuestion : ExamQuestion :=
  { question := "What is the capital of France?"
    options := ["Paris", "London"]
    correctAnswer := "Paris"
    explanation := "Paris is the capital." }

/-- A question violating the spec's content contract: empty option list, so in
particular its correct answer is not among the options. -/
def badQuestion : ExamQuestion :=
  { question := "Q", options := [], correctAnswer := "X", explanation := "E" }

/-- A session waiting on a generation request. -/
def loadingState : App :=
  { appState := .loading
    topic := "World History"
    examQuestions := []
    userAnswers := []
    currentQuestionIndex := 0
    timeLeft := EXAM_DURATION_SECONDS
    timeUp := false }

/-- A freshly started one-question session, reached from the initial render by
starting an exam and receiving one question. -/
def demoInProgress : App :=
  uiStep (uiStep initialState (.startExam "Geography"))
    (.finishFetch (some [demoQuestion]))

lemma demoInProgress_reachable : Reachable demoInProgress :=
  Reachable.step (.finishFetch (some [demoQuestion]))
    (Reachable.step (.startExam "Geography") Reachable.init)

/-- A session on the results screen with 123 seconds still on the clock. -/
def finishedState : App :=
  { appState := .results
    topic := "Astrophysics"
    examQuestions := [demoQuestion]
    userAnswers := [some "Paris"]
    currentQuestionIndex := 0
    timeLeft := 123
    timeUp := false }

/-- A running session with the full 300 seconds on the clock. -/
def runningState : App :=
  { appState := .in_progress
    topic := "Geography"
    examQuestions := [demoQuestion]
    userAnswers := [none]
    currentQuestionIndex := 0
    timeLeft := 300
    timeUp := false }

/-! ### The claims -/

/-- C1: on index-aligned inputs the scorer returns exactly the count of
positions whose submitted answer equals the question's correct answer — exact
case-sensitive match, an unanswered (`none`) entry never matching — and that
count is at most the number of questions. -/
theorem calculateScore_matches_spec (qs : List ExamQuestion)
    (as : List (Option String)) (h : as.length = qs.length) :
    calculateScore qs as = some (specMatchCount qs as) ∧
    specMatchCount qs as ≤ qs.length :=
  ⟨calculateScore_eq_specMatchCount qs as (le_of_eq h), specMatchCount_le qs as⟩

/-- Witness for C1: the spec's three-question scenario, whose score is 2. -/
theorem calculateScore_matches_spec_witness :
    (calculateScore scenarioQuestions scenarioAnswers
        = some (specMatchCount scenarioQuestions scenarioAnswers) ∧
      specMatchCount scenarioQuestions scenarioAnswers
        ≤ scenarioQuestions.length) ∧
    specMatchCount scenarioQuestions scenarioAnswers = 2 :=
  ⟨calculateScore_matches_spec scenarioQuestions scenarioAnswers (by decide),
   by decide⟩

/-- C2: from an in-progress session with 300 seconds left, each of the first
299 seconds leaves the session in progress with the clock decremented by
exactly one per tick, and the 300th tick drives the clock to zero and fires
the automatic submit: the state becomes results with the time-up flag set. -/
theorem countdown_expires (s : App) (hs : s.appState = .in_progress)
    (ht : s.timeLeft = 300) :
    (∀ k, k < 300 → (iterTick k s).appState = .in_progress ∧
        (iterTick k s).timeLeft = 300 - (k : Int)) ∧
    ((iterTick 300 s).appState = .results ∧ (iterTick 300 s).timeUp = true) := by
  obtain ⟨hall, hfin⟩ :=
    countdown_run 300 (by omega) s hs (by rw [ht]; norm_num)
  refine ⟨fun k hk => ?_, ?_⟩
  · have := hall k hk
    simpa using this
  · simpa using hfin

/-- Witness for C2: a concrete running session expires after 300 ticks. -/
theorem countdown_expires_witness :
    (iterTick 300 runningState).appState = .results ∧
    (iterTick 300 runningState).timeUp = true :=
  (countdown_expires runningState rfl rfl).2

/-- C3 counterexample: `generateExam` invoked while the session is already
loading is not ignored — the state changes (the topic is overwritten) and
another fetch is issued. -/
theorem start_while_loading_not_ignored :
    (generateExamStart loadingState "Astrophysics").1 ≠ loadingState ∧
    (generateExamStart loadingState "Astrophysics").2 = true :=
  ⟨by decide, rfl⟩

/-- C3 amended: `generateExam` itself has no reentrancy guard — called while
already loading it proceeds, re-entering the loading state, overwriting the
topic and issuing another fetch; a second call is prevented only at the UI
layer, whose loading view exposes no start control (no UI event starts a
fetch from the loading state). -/
theorem start_while_loading_proceeds (s : App) (t : String)
    (hs : s.appState = .loading) :
    (generateExamStart s t).1.appState = .loading ∧
    (generateExamStart s t).1.topic = t ∧
    (generateExamStart s t).2 = true ∧
    uiStep s (.startExam t) = s := by
  refine ⟨rfl, rfl, rfl, ?_⟩
  simp only [uiStep]
  rw [if_neg (by simp [hs])]

/-- Witness for the amended C3, at a concrete loading session. -/
theorem start_while_loading_proceeds_witness :
    (generateExamStart loadingState "Astrophysics").1.appState = .loading ∧
    uiStep loadingState (.startExam "Astrophysics") = loadingState :=
  ⟨(start_while_loading_proceeds loadingState "Astrophysics" rfl).1,
   (start_while_loading_proceeds loadingState "Astrophysics" rfl).2.2.2⟩

/-- C4: a failed fetch or an empty question list sends the attempt to the
loading state and then straight back to the start state with the error alert
shown; no field other than the topic recorded at the start of the attempt
changes, and the in-progress state is never entered during the attempt. -/
theorem generateExam_failure_recovers (s : App) (t : String)
    (r : Option (List ExamQuestion)) (hr : r = none ∨ r = some []) :
    (generateExamStart s t).1.appState = .loading ∧
    (generateExamFinish (generateExamStart s t).1 r).1
      = { s with topic := t, appState := .start } ∧
    (generateExamFinish (generateExamStart s t).1 r).2 = true := by
  obtain rfl | rfl := hr
  · exact ⟨rfl, rfl, rfl⟩
  · exact ⟨rfl, rfl, rfl⟩

/-- Witness for C4: an empty question list returned to a fresh attempt. -/
theorem generateExam_failure_recovers_witness :
    (generateExamFinish (generateExamStart initialState "Marine Biology").1
        (some [])).1
      = { initialState with topic := "Marine Biology", appState := .start } ∧
    (generateExamFinish (generateExamStart initialState "Marine Biology").1
        (some [])).2 = true :=
  ⟨(generateExam_failure_recovers initialState "Marine Biology" (some [])
      (Or.inr rfl)).2.1,
   (generateExam_failure_recovers initialState "Marine Biology" (some [])
      (Or.inr rfl)).2.2⟩

/-- C5 counterexample: a question with an empty option list — so certainly not
containing its correct answer — is accepted without any error: the session
enters the in-progress state holding it and no alert is shown, instead of the
response being treated as a generation error. -/
theorem malformed_question_accepted :
    badQuestion.options = [] ∧
    ¬ badQuestion.correctAnswer ∈ badQuestion.options ∧
    (generateExamFinish loadingState (some [badQuestion])).1.appState
      = .in_progress ∧
    (generateExamFinish loadingState (some [badQuestion])).1.examQuestions
      = [badQuestion] ∧
    (generateExamFinish loadingState (some [badQuestion])).2 = false := by
  decide

/-- C5 amended: the continuation of `generateExam` checks only that the parsed
question list is non-empty; it performs no per-question validation, so any
non-empty list — whatever its option lists and correct answers — is accepted
and the session enters the in-progress state holding it. -/
theorem fetch_validation_only_nonempty (s : App) (qs : List ExamQuestion)
    (h : qs ≠ []) :
    (generateExamFinish s (some qs)).1.appState = .in_progress ∧
    (generateExamFinish s (some qs)).1.examQuestions = qs ∧
    (generateExamFinish s (some qs)).2 = false := by
  have hpos : qs.length > 0 := List.length_pos.mpr h
  simp [generateExamFinish, if_pos hpos]

/-- Witness for the amended C5: the malformed question is accepted. -/
theorem fetch_validation_only_nonempty_witness :
    (generateExamFinish loadingState (some [badQuestion])).1.appState
      = .in_progress ∧
    (generateExamFinish loadingState (some [badQuestion])).1.examQuestions
      = [badQuestion] ∧
    (generateExamFinish loadingState (some [badQuestion])).2 = false :=
  fetch_validation_only_nonempty loadingState [badQuestion] (by decide)

/-- C6: in every state the running app can reach — in particular from the
moment the in-progress state is entered until reset — the answers list and the
question list have the same length; every operation preserves the alignment. -/
theorem answers_length_invariant (s : App) (h : Reachable s) :
    s.userAnswers.length = s.examQuestions.length :=
  (goodState_of_reachable h).1

/-- Witness for C6: a concrete reachable in-progress session. -/
theorem answers_length_invariant_witness :
    demoInProgress.userAnswers.length = demoInProgress.examQuestions.length :=
  answers_length_invariant demoInProgress demoInProgress_reachable

/-- C7: navigation stays inside the question range — in any reachable session
that is in progress the index is strictly below the number of questions, a
next at the last index is a no-op, and a previous at index zero is a no-op. -/
theorem navigation_clamped (s : App) (h : Reachable s) :
    (s.appState = .in_progress →
      s.currentQuestionIndex < s.examQuestions.length) ∧
    (s.currentQuestionIndex = s.examQuestions.length - 1 → handleNext s = s) ∧
    (s.currentQuestionIndex = 0 → handlePrevious s = s) := by
  obtain ⟨h1, h2, h3⟩ := goodState_of_reachable h
  refine ⟨fun hs => h2 (h3 hs), fun hlast => ?_, fun h0 => ?_⟩
  · rw [handleNext, if_neg (by omega)]
  · rw [handlePrevious, if_neg (by omega)]

/-- Witness for C7: in the concrete one-question session the index is in
range and both navigations at the boundary are no-ops. -/
theorem navigation_clamped_witness :
    demoInProgress.currentQuestionIndex < demoInProgress.examQuestions.length ∧
    handleNext demoInProgress = demoInProgress ∧
    handlePrevious demoInProgress = demoInProgress :=
  ⟨(navigation_clamped demoInProgress demoInProgress_reachable).1 (by decide),
   (navigation_clamped demoInProgress demoInProgress_reachable).2.1 (by decide),
   (navigation_clamped demoInProgress demoInProgress_reachable).2.2 (by decide)⟩

/-- C8 counterexample: reset does not clear the remaining time — from a
finished session with 123 seconds on the clock, the state after reset is the
start state but the clock still reads 123, neither zero nor the initial 300. -/
theorem reset_keeps_remaining_time :
    (handleReset finishedState).appState = .start ∧
    (handleReset finishedState).timeLeft = 123 ∧
    finishedState.timeLeft = 123 :=
  ⟨rfl, rfl, rfl⟩

/-- C8 amended: reset returns the state to the start screen and clears the
questions, the answers, the index and the time-up flag (and restores the
default topic), but leaves the remaining time unchanged; the clock is only
re-initialised by the next successful start. -/
theorem reset_clears_fields (s : App) :
    (handleReset s).appState = .start ∧
    (handleReset s).examQuestions = [] ∧
    (handleReset s).userAnswers = [] ∧
    (handleReset s).currentQuestionIndex = 0 ∧
    (handleReset s).timeUp = false ∧
    (handleReset s).topic = "World History" ∧
    (handleReset s).timeLeft = s.timeLeft :=
  ⟨rfl, rfl, rfl, rfl, rfl, rfl, rfl⟩

/-- C9: selecting an answer writes it at the current index; selecting the same
answer twice equals selecting it once, and a later selection at the same index
replaces the earlier one. -/
theorem selectAnswer_overwrites (s : App) (a b : String) :
    ((handleAnswerSelect s a).userAnswers)[s.currentQuestionIndex]?
      = some (some a) ∧
    handleAnswerSelect (handleAnswerSelect s a) a = handleAnswerSelect s a ∧
    handleAnswerSelect (handleAnswerSelect s a) b = handleAnswerSelect s b := by
  refine ⟨jsArraySet_getElem .., ?_, ?_⟩
  · simp only [handleAnswerSelect]
    rw [jsArraySet_jsArraySet]
  · simp only [handleAnswerSelect]
    rw [jsArraySet_jsArraySet]

/-- C10: the scorer indexes the question list with no bounds check, but in
every reachable state the answers list is no longer than the question list, so
every access is in range and the scorer returns a value instead of crashing. -/
theorem calculateScore_safe (s : App) (h : Reachable s) :
    s.userAnswers.length ≤ s.examQuestions.length ∧
    (calculateScore s.examQuestions s.userAnswers).isSome = true := by
  have h1 := (goodState_of_reachable h).1
  refine ⟨le_of_eq h1, ?_⟩
  rw [calculateScore_eq_specMatchCount _ _ (le_of_eq h1)]
  rfl

/-- Witness for C10: the scorer succeeds on a concrete reachable session. -/
theorem calculateScore_safe_witness :
    demoInProgress.userAnswers.length ≤ demoInProgress.examQuestions.length ∧
    (calculateScore demoInProgress.examQuestions
        demoInProgress.userAnswers).isSome = true :=
  calculateScore_safe demoInProgress demoInProgress_reachable

end ExamAI
